import Mathlib

/-!
Verification development for the boa lexer (`src/boa/src/syntax/lexer/mod.rs`).

The dispatch/iteration step of the lexer (`Lexer::next`, `Lexer::is_whitespace`,
`Lexer::_set_goal`, `InputElement`) is translated from the source file. The
collaborating components (Position/Span/Token/Error data model, the Cursor, and
the sub-tokenizer family) live in source files that are not available; they are
modelled from the specification, and each such definition carries a doc comment
starting with `Modelled from the spec:`.
-/

namespace Boa

/-- Modelled from the spec: the `Position` type of `syntax/ast` (source file not
available): a 1-based line number and a 1-based column number. -/
structure Position where
  line : Nat
  col : Nat
deriving DecidableEq, Repr

def Position.line_number (p : Position) : Nat := p.line

def Position.column_number (p : Position) : Nat := p.col

/-- Modelled from the spec: strict line-major ordering on source positions. -/
def Position.lt (p q : Position) : Prop :=
  p.line < q.line ∨ (p.line = q.line ∧ p.col < q.col)

/-- Modelled from the spec: reflexive line-major ordering on source positions. -/
def Position.le (p q : Position) : Prop :=
  p.line < q.line ∨ (p.line = q.line ∧ p.col ≤ q.col)

instance (p q : Position) : Decidable (Position.lt p q) := by
  unfold Position.lt; infer_instance

instance (p q : Position) : Decidable (Position.le p q) := by
  unfold Position.le; infer_instance

/-- Modelled from the spec: the `Span` type of `syntax/ast` (source file not
available): an ordered pair of a start position and an end position, the end
being the position immediately after the last consumed character. The source
field named `end` is a Lean keyword, so it is called `stop` here. -/
structure Span where
  start : Position
  stop : Position
deriving DecidableEq, Repr

def Span.new (s e : Position) : Span := ⟨s, e⟩

/-- Modelled from the spec: the `Punctuator` enum of `syntax/ast` (source file
not available). The variants named by the dispatch step keep their source
names; the operator punctuators produced by the operator sub-tokenizer are
represented by their lexeme through the `Op` constructor. -/
inductive Punctuator where
  | Semicolon
  | Colon
  | OpenParen
  | CloseParen
  | Comma
  | OpenBlock
  | CloseBlock
  | OpenBracket
  | CloseBracket
  | Question
  | Dot
  | Spread
  | Div
  | AssignDiv
  | Op (lexeme : String)
deriving DecidableEq, Repr

/-- Modelled from the spec: the closed `TokenKind` set (source file `token.rs`
not available) — exactly one variant per lexeme class. -/
inductive TokenKind where
  | Identifier (name : String)
  | Keyword (name : String)
  | BooleanLiteral (b : Bool)
  | NullLiteral
  | NumericLiteral (lexeme : String)
  | StringLiteral (value : String)
  | TemplateLiteral (value : String)
  | RegularExpressionLiteral (body : String) (flags : String)
  | Punctuator (p : Punctuator)
  | LineTerminator
  | Comment
  | EOF
deriving DecidableEq, Repr

/-- Discriminator for the regular-expression literal kind. -/
def TokenKind.isRegex : TokenKind → Bool
  | TokenKind.RegularExpressionLiteral _ _ => true
  | _ => false

/-- Modelled from the spec: a `Token` (source file `token.rs` not available) is
an immutable value holding a `TokenKind` and a `Span`. -/
structure Token where
  kind : TokenKind
  span : Span
deriving DecidableEq, Repr

def Token.new (kind : TokenKind) (span : Span) : Token := ⟨kind, span⟩

/-- Modelled from the spec: the lexical `Error` type (source file `error.rs` not
available). The source constructor for a malformed-lexeme defect carries a
human-readable message; its source name is a reserved word in Lean, so it is
called `syntactic` here. Input-source (IO) failures cannot arise for the pure
character-list source modelled here, so only the defect constructor is needed. -/
inductive Error where
  | syntactic (msg : String)
deriving DecidableEq, Repr

instance exceptDecEq {ε α : Type} [DecidableEq ε] [DecidableEq α] :
    DecidableEq (Except ε α) := fun a b =>
  match a, b with
  | Except.ok x, Except.ok y =>
    if h : x = y then Decidable.isTrue (by rw [h])
    else Decidable.isFalse (by intro hc; injection hc; exact h (by assumption))
  | Except.error x, Except.error y =>
    if h : x = y then Decidable.isTrue (by rw [h])
    else Decidable.isFalse (by intro hc; injection hc; exact h (by assumption))
  | Except.ok _, Except.error _ => Decidable.isFalse (by intro hc; exact Except.noConfusion hc)
  | Except.error _, Except.ok _ => Decidable.isFalse (by intro hc; exact Except.noConfusion hc)

/-- Modelled from the spec: the ECMAScript line terminators CR, LF, U+2028 and
U+2029, as matched by the first dispatch arm and used by the cursor's position
bookkeeping. -/
def isLineTerminator (ch : Char) : Bool :=
  ch = '\r' || ch = '\n' || ch = '\u2028' || ch = '\u2029'

/-- Modelled from the spec: position advance of the cursor — a line terminator
increments the line and resets the column to 1, every other character
increments the column. -/
def advancePos (p : Position) (ch : Char) : Position :=
  if isLineTerminator ch then ⟨p.line + 1, 1⟩ else ⟨p.line, p.col + 1⟩

/-- Position reached after consuming a whole list of characters. -/
def advanceMany (p : Position) (l : List Char) : Position := l.foldl advancePos p

/-- Modelled from the spec: the `Cursor` (source file `cursor.rs` not
available): exclusively owns the character source — a pure list of the
remaining characters here — together with the current position. -/
structure Cursor where
  chars : List Char
  line : Nat
  col : Nat
deriving DecidableEq, Repr

def Cursor.new (chars : List Char) : Cursor := ⟨chars, 1, 1⟩

def Cursor.pos (c : Cursor) : Position := ⟨c.line, c.col⟩

/-- Cursor holding the characters `chars` at position `p`. -/
def cursorAt (chars : List Char) (p : Position) : Cursor := ⟨chars, p.line, p.col⟩

/-- Modelled from the spec: consume one character, advancing the position, or
signal end of input. -/
def Cursor.next? (c : Cursor) : Option (Char × Cursor) :=
  match c.chars with
  | [] => none
  | ch :: rest => some (ch, cursorAt rest (advancePos c.pos ch))

/-- ECMAScript goal symbols (`enum InputElement` in `lexer/mod.rs`). -/
inductive InputElement where
  | Div
  | _RegExp
  | _RegExpOrTemplateTail
  | _TemplateTail
deriving DecidableEq, Repr

/-- Default goal symbol (`impl Default for InputElement` in `lexer/mod.rs`):
`InputElement::Div`. -/
def InputElement.default : InputElement := InputElement.Div

/-- Lexer for the boa engine (`struct Lexer` in `lexer/mod.rs`): a cursor and
the current goal symbol. -/
structure Lexer where
  cursor : Cursor
  goal_symbol : InputElement
deriving DecidableEq, Repr

/-- Whitespace check `Lexer::is_whitespace` in `lexer/mod.rs` (ECMAScript
whitespace, not Rust `char::is_whitespace`). -/
def Lexer.is_whitespace (ch : Char) : Bool :=
  ch = ' ' || ch = '\u0009' || ch = '\u000B' || ch = '\u000C' ||
  ch = '\u00A0' || ch = '\uFEFF' ||
  ch = '\u1680' || ('\u2000' ≤ ch && ch ≤ '\u200A') ||
  ch = '\u202F' || ch = '\u205F' || ch = '\u3000'

/-- Goal-symbol setter `Lexer::_set_goal` in `lexer/mod.rs`. -/
def Lexer._set_goal (l : Lexer) (elm : InputElement) : Lexer :=
  { l with goal_symbol := elm }

/-- Constructor `Lexer::new` in `lexer/mod.rs`: a fresh cursor and the default
goal symbol. -/
def Lexer.new (reader : List Char) : Lexer :=
  ⟨Cursor.new reader, InputElement.default⟩

def squoteChar : Char := Char.ofNat 39

def backtickChar : Char := Char.ofNat 96

def lbraceChar : Char := Char.ofNat 123

def rbraceChar : Char := Char.ofNat 125

/-- Modelled from the spec: the Unicode-alphabetic classification used by the
identifier dispatch arm (`char::is_alphabetic`), approximated by ASCII letters;
the approximation agrees with the source classification on every ASCII
character, and no theorem below depends on the classification of non-ASCII
letters. -/
def isAlphabetic (ch : Char) : Bool := ch.isAlpha

/-- Modelled from the spec: the identifier-part characters consumed by the
identifier sub-tokenizer — letters, digits, `$` and `_`. -/
def isIdentPart (ch : Char) : Bool := ch.isAlphanum || ch = '$' || ch = '_'

/-- Modelled from the spec: the fixed reserved-word set of the identifier
sub-tokenizer (source file `identifier.rs` not available). -/
def keywords : List String :=
  ["await", "break", "case", "catch", "class", "const", "continue",
   "debugger", "default", "delete", "do", "else", "enum", "extends",
   "finally", "for", "function", "if", "in", "instanceof", "new", "of",
   "return", "super", "switch", "this", "throw", "try", "typeof", "var",
   "void", "while", "with", "yield"]

/-- Modelled from the spec: the valid operator lexemes used by the
maximal-munch matching of the operator sub-tokenizer (source file `operator.rs`
not available). -/
def operatorStrings : List String :=
  ["*", "*=", "**", "**=", "+", "+=", "++", "-", "-=", "--", "%", "%=",
   "|", "|=", "||", "&", "&=", "&&", "^", "^=", "=", "==", "===", "=>",
   "<", "<=", "<<", "<<=", ">", ">=", ">>", ">>=", ">>>", ">>>=",
   "!", "!=", "!==", "~"]

/-- Whitespace-skipping loop of `Lexer::next` (`lexer/mod.rs` lines 122-133),
unrolled over the remaining character list. -/
def skipWsList : List Char → Position → Cursor
  | [], p => cursorAt [] p
  | ch :: rest, p =>
    if Lexer.is_whitespace ch then skipWsList rest (advancePos p ch)
    else cursorAt (ch :: rest) p

def skipWs (c : Cursor) : Cursor := skipWsList c.chars c.pos

/-- Modelled from the spec: a maximal run of characters satisfying `pred`,
appended to `acc`, together with the cursor after the run. -/
def runTail (pred : Char → Bool) : List Char → Position → String → String × Cursor
  | [], p, acc => (acc, cursorAt [] p)
  | ch :: rest, p, acc =>
    if pred ch then runTail pred rest (advancePos p ch) (acc.push ch)
    else (acc, cursorAt (ch :: rest) p)

/-- Modelled from the spec: the identifier/keyword sub-tokenizer (source file
`identifier.rs` not available): consumes a maximal run of identifier-part
characters and classifies the lexeme — a reserved word becomes a Keyword, the
literal words `true`, `false` and `null` take the dedicated literal kinds of
the closed TokenKind set, anything else is an Identifier. -/
def Identifier.lex (init : Char) (c : Cursor) (start : Position) :
    (Except Error Token) × Cursor :=
  let r := runTail isIdentPart c.chars c.pos (String.singleton init)
  let lexeme := r.1
  let c1 := r.2
  let kind :=
    if lexeme = "true" then TokenKind.BooleanLiteral true
    else if lexeme = "false" then TokenKind.BooleanLiteral false
    else if lexeme = "null" then TokenKind.NullLiteral
    else if lexeme ∈ keywords then TokenKind.Keyword lexeme
    else TokenKind.Identifier lexeme
  (Except.ok (Token.new kind (Span.new start c1.pos)), c1)

/-- Modelled from the spec: escape-sequence decoding of the string
sub-tokenizer. -/
def escapeChar (ch : Char) : Char :=
  if ch = 'n' then '\n'
  else if ch = 't' then '\t'
  else if ch = 'r' then '\r'
  else if ch = 'b' then Char.ofNat 8
  else if ch = 'f' then Char.ofNat 12
  else if ch = 'v' then Char.ofNat 11
  else if ch = '0' then Char.ofNat 0
  else ch

/-- Modelled from the spec: the consumption loop of the string sub-tokenizer —
consumes up to the closing quote, processing escape sequences one character at
a time through the pending-escape flag `esc`, and fails on an unterminated
string. -/
def strTail (quote : Char) : List Char → Position → Bool → String →
    (Except Error String) × Cursor
  | [], p, _, _ =>
    (Except.error (Error.syntactic ("unterminated string literal")), cursorAt [] p)
  | ch :: rest, p, esc, acc =>
    if esc then strTail quote rest (advancePos p ch) false (acc.push (escapeChar ch))
    else if ch = quote then (Except.ok acc, cursorAt rest (advancePos p ch))
    else if ch = '\\' then strTail quote rest (advancePos p ch) true acc
    else strTail quote rest (advancePos p ch) false (acc.push ch)

/-- Modelled from the spec: the string-literal sub-tokenizer (source file
`string.rs` not available): given the opening quote character, consumes the
remaining characters of the literal and produces a StringLiteral token with its
decoded value, or fails on an unterminated string. -/
def StringLiteral.lex (quote : Char) (c : Cursor) (start : Position) :
    (Except Error Token) × Cursor :=
  match strTail quote c.chars c.pos false ("") with
  | (Except.ok s, c1) =>
    (Except.ok (Token.new (TokenKind.StringLiteral s) (Span.new start c1.pos)), c1)
  | (Except.error e, c1) => (Except.error e, c1)

/-- Modelled from the spec: the consumption loop of the template sub-tokenizer —
consumes raw text up to the closing delimiter, tracking the nesting depth of
substitution openings (a brace opened by a directly preceding dollar sign,
signalled through `prevDollar`), and fails on an unterminated template. -/
def tmplTail : List Char → Position → Nat → Bool → String →
    (Except Error String) × Cursor
  | [], p, _, _, _ =>
    (Except.error (Error.syntactic ("unterminated template literal")), cursorAt [] p)
  | ch :: rest, p, depth, prevDollar, acc =>
    if ch = backtickChar ∧ depth = 0 then (Except.ok acc, cursorAt rest (advancePos p ch))
    else if prevDollar ∧ ch = lbraceChar then
      tmplTail rest (advancePos p ch) (depth + 1) false (acc.push ch)
    else if ch = rbraceChar ∧ 0 < depth then
      tmplTail rest (advancePos p ch) (depth - 1) false (acc.push ch)
    else tmplTail rest (advancePos p ch) depth (ch == '$') (acc.push ch)

/-- Modelled from the spec: the template-literal sub-tokenizer (source file
`template.rs` not available). -/
def TemplateLiteral.lex (c : Cursor) (start : Position) :
    (Except Error Token) × Cursor :=
  match tmplTail c.chars c.pos 0 false ("") with
  | (Except.ok s, c1) =>
    (Except.ok (Token.new (TokenKind.TemplateLiteral s) (Span.new start c1.pos)), c1)
  | (Except.error e, c1) => (Except.error e, c1)

def isHexDigitCh (ch : Char) : Bool :=
  ch.isDigit || ('a' ≤ ch && ch ≤ 'f') || ('A' ≤ ch && ch ≤ 'F')

def isOctDigitCh (ch : Char) : Bool := '0' ≤ ch && ch ≤ '7'

def isBinDigitCh (ch : Char) : Bool := ch = '0' || ch = '1'

/-- Modelled from the spec: the optional sign of an exponent part. -/
def numSign (c2 : Cursor) : String × Cursor :=
  match c2.chars with
  | s :: rest2 =>
    if s = '+' ∨ s = '-' then
      (String.singleton s, cursorAt rest2 (advancePos c2.pos s))
    else (("" : String), c2)
  | [] => (("" : String), c2)

/-- Modelled from the spec: exponent part of the decimal numeric grammar — an
optional `e`/`E` followed by an optional sign and mandatory digits, failing on
missing exponent digits. -/
def numExp (acc : String) (c1 : Cursor) : (Except Error String) × Cursor :=
  match c1.chars with
  | ch :: rest =>
    if ch = 'e' ∨ ch = 'E' then
      let sgn := numSign (cursorAt rest (advancePos c1.pos ch))
      let r := runTail Char.isDigit sgn.2.chars sgn.2.pos ("")
      if r.1 = "" then (Except.error (Error.syntactic ("missing exponent digits")), r.2)
      else (Except.ok (((acc.push ch) ++ sgn.1) ++ r.1), r.2)
    else (Except.ok acc, c1)
  | [] => (Except.ok acc, c1)

/-- Modelled from the spec: optional fractional part of the decimal numeric
grammar, followed by the optional exponent part. -/
def numFrac (acc : String) (c1 : Cursor) : (Except Error String) × Cursor :=
  match c1.chars with
  | ch :: rest =>
    if ch = '.' then
      let r := runTail Char.isDigit rest (advancePos c1.pos ch) ("")
      numExp ((acc.push ch) ++ r.1) r.2
    else numExp acc c1
  | [] => (Except.ok acc, c1)

/-- Modelled from the spec: the numeric sub-tokenizer (source file `number.rs`
not available): consumes a maximal run forming a valid numeric grammar —
decimal with optional fractional and exponent parts, and `0x`/`0o`/`0b` radix
prefixes — failing with a syntax Error on malformed sequences (a radix prefix
without digits, an exponent without digits). The threaded strict-mode flag is
given its standard ECMAScript observable effect, the rejection of implicit
octal literals (a leading `0` directly followed by a digit). -/
def NumberLiteral.lex (init : Char) (strict : Bool) (c : Cursor) (start : Position) :
    (Except Error Token) × Cursor :=
  if init = '0' then
    match c.chars with
    | ch :: rest =>
      if ch = 'x' ∨ ch = 'X' then
        let r := runTail isHexDigitCh rest (advancePos c.pos ch) ("")
        if r.1 = "" then
          (Except.error (Error.syntactic ("missing digits after radix prefix")), r.2)
        else
          (Except.ok (Token.new (TokenKind.NumericLiteral ((("0" : String).push ch) ++ r.1))
            (Span.new start r.2.pos)), r.2)
      else if ch = 'o' ∨ ch = 'O' then
        let r := runTail isOctDigitCh rest (advancePos c.pos ch) ("")
        if r.1 = "" then
          (Except.error (Error.syntactic ("missing digits after radix prefix")), r.2)
        else
          (Except.ok (Token.new (TokenKind.NumericLiteral ((("0" : String).push ch) ++ r.1))
            (Span.new start r.2.pos)), r.2)
      else if ch = 'b' ∨ ch = 'B' then
        let r := runTail isBinDigitCh rest (advancePos c.pos ch) ("")
        if r.1 = "" then
          (Except.error (Error.syntactic ("missing digits after radix prefix")), r.2)
        else
          (Except.ok (Token.new (TokenKind.NumericLiteral ((("0" : String).push ch) ++ r.1))
            (Span.new start r.2.pos)), r.2)
      else if ch.isDigit then
        if strict then
          (Except.error (Error.syntactic ("implicit octal literals are not allowed in strict mode")), c)
        else
          let r := runTail Char.isDigit c.chars c.pos ("0")
          (Except.ok (Token.new (TokenKind.NumericLiteral r.1) (Span.new start r.2.pos)), r.2)
      else
        match numFrac (String.singleton init) c with
        | (Except.ok s, c2) =>
          (Except.ok (Token.new (TokenKind.NumericLiteral s) (Span.new start c2.pos)), c2)
        | (Except.error e, c2) => (Except.error e, c2)
    | [] =>
      (Except.ok (Token.new (TokenKind.NumericLiteral ("0")) (Span.new start c.pos)), c)
  else
    let r := runTail Char.isDigit c.chars c.pos (String.singleton init)
    match numFrac r.1 r.2 with
    | (Except.ok s, c2) =>
      (Except.ok (Token.new (TokenKind.NumericLiteral s) (Span.new start c2.pos)), c2)
    | (Except.error e, c2) => (Except.error e, c2)

/-- Modelled from the spec: the maximal-munch loop of the operator
sub-tokenizer — extends the lexeme one character at a time while the longer
string remains a valid operator. -/
def opTail : List Char → Position → String → String × Cursor
  | [], p, lexeme => (lexeme, cursorAt [] p)
  | ch :: rest, p, lexeme =>
    if (lexeme.push ch) ∈ operatorStrings then opTail rest (advancePos p ch) (lexeme.push ch)
    else (lexeme, cursorAt (ch :: rest) p)

/-- Modelled from the spec: the operator sub-tokenizer (source file
`operator.rs` not available), producing a Punctuator token for the longest
valid operator lexeme. -/
def Operator.lex (init : Char) (c : Cursor) (start : Position) :
    (Except Error Token) × Cursor :=
  let r := opTail c.chars c.pos (String.singleton init)
  (Except.ok (Token.new (TokenKind.Punctuator (Punctuator.Op r.1)) (Span.new start r.2.pos)), r.2)

/-- Modelled from the spec: the spread/dot sub-tokenizer (source file
`spread.rs` not available): disambiguates a lone `.` punctuator from the `...`
spread punctuator by bounded lookahead of two further characters. -/
def SpreadLiteral.lex (c : Cursor) (start : Position) :
    (Except Error Token) × Cursor :=
  match c.chars with
  | d1 :: d2 :: rest =>
    if d1 = '.' ∧ d2 = '.' then
      let p2 := advancePos (advancePos c.pos d1) d2
      (Except.ok (Token.new (TokenKind.Punctuator Punctuator.Spread) (Span.new start p2)),
       cursorAt rest p2)
    else
      (Except.ok (Token.new (TokenKind.Punctuator Punctuator.Dot) (Span.new start c.pos)), c)
  | _ =>
    (Except.ok (Token.new (TokenKind.Punctuator Punctuator.Dot) (Span.new start c.pos)), c)

/-- Modelled from the spec: the loop of the line-comment form — consumes to the
end of the line, leaving the terminator for the main loop. -/
def lineCommentTail : List Char → Position → Cursor
  | [], p => cursorAt [] p
  | ch :: rest, p =>
    if isLineTerminator ch then cursorAt (ch :: rest) p
    else lineCommentTail rest (advancePos p ch)

/-- Modelled from the spec: the loop of the block-comment form — consumes to the
matching closing delimiter (a `/` directly preceded by a `*`, signalled
through `sawStar`), failing on an unterminated block comment. -/
def blockCommentTail : List Char → Position → Bool → (Except Error Unit) × Cursor
  | [], p, _ =>
    (Except.error (Error.syntactic ("unterminated multiline comment")), cursorAt [] p)
  | ch :: rest, p, sawStar =>
    if sawStar && ch == '/' then (Except.ok (), cursorAt rest (advancePos p ch))
    else blockCommentTail rest (advancePos p ch) (ch == '*')

/-- Modelled from the spec: the comment sub-tokenizer (source file `comment.rs`
not available, together with its `comment_match!` trigger macro, which matches
`/`): consumes either to end-of-line (line comment) or to the matching closing
delimiter (block comment), failing on an unterminated block comment; a `/`
opening neither comment form is division-operator context under the default
goal symbol and produces the `/` or `/=` punctuator. -/
def Comment.lex (c : Cursor) (start : Position) : (Except Error Token) × Cursor :=
  match c.chars with
  | ch :: rest =>
    if ch = '/' then
      let c1 := lineCommentTail rest (advancePos c.pos ch)
      (Except.ok (Token.new TokenKind.Comment (Span.new start c1.pos)), c1)
    else if ch = '*' then
      match blockCommentTail rest (advancePos c.pos ch) false with
      | (Except.ok _, c1) =>
        (Except.ok (Token.new TokenKind.Comment (Span.new start c1.pos)), c1)
      | (Except.error e, c1) => (Except.error e, c1)
    else if ch = '=' then
      (Except.ok (Token.new (TokenKind.Punctuator Punctuator.AssignDiv)
        (Span.new start (advancePos c.pos ch))), cursorAt rest (advancePos c.pos ch))
    else
      (Except.ok (Token.new (TokenKind.Punctuator Punctuator.Div) (Span.new start c.pos)), c)
  | [] =>
    (Except.ok (Token.new (TokenKind.Punctuator Punctuator.Div) (Span.new start c.pos)), c)

/-- Modelled from the spec: the body loop of the regular-expression
sub-tokenizer — consumes a pattern body up to an unescaped closing `/`
(escapes tracked through the pending-escape flag `esc`), failing on an
unterminated literal. -/
def regexTail : List Char → Position → Bool → String → (Except Error String) × Cursor
  | [], p, _, _ =>
    (Except.error (Error.syntactic ("unterminated regular expression literal")), cursorAt [] p)
  | ch :: rest, p, esc, acc =>
    if esc then regexTail rest (advancePos p ch) false (acc.push ch)
    else if ch = '/' then (Except.ok acc, cursorAt rest (advancePos p ch))
    else if ch = '\\' then regexTail rest (advancePos p ch) true (acc.push ch)
    else regexTail rest (advancePos p ch) false (acc.push ch)

/-- Modelled from the spec: the regular-expression sub-tokenizer (source file
`regex.rs` not available): consumes a pattern body up to an unescaped closing
delimiter plus trailing flag characters; it is declared but not reachable from
the main dispatch. -/
def RegexLiteral.lex (c : Cursor) (start : Position) : (Except Error Token) × Cursor :=
  match regexTail c.chars c.pos false ("") with
  | (Except.ok body, c1) =>
    let r := runTail isIdentPart c1.chars c1.pos ("")
    (Except.ok (Token.new (TokenKind.RegularExpressionLiteral body r.1)
      (Span.new start r.2.pos)), r.2)
  | (Except.error e, c1) => (Except.error e, c1)

/-- Error-message construction of the final dispatch arm (`lexer/mod.rs` lines
196-204): the Rust format string names the unexpected character and its 1-based
line and column. -/
def unexpectedMsg (ch : Char) (p : Position) : String :=
  (((("Unexpected " ++ String.singleton squoteChar) ++ String.singleton ch) ++
    String.singleton squoteChar) ++ (" at line " ++ Nat.repr p.line_number)) ++
    (", column " ++ Nat.repr p.column_number)

/-- Dispatch step of `Lexer::next` (`lexer/mod.rs` lines 138-205): the match on
the first significant character, taken after that character has already been
consumed; `c` is the cursor advanced past `next_chr` and `start` the position
recorded before it. The arms appear in source order. -/
def dispatchToken (strict_mode : Bool) (next_chr : Char) (start : Position) (c : Cursor) :
    (Except Error Token) × Cursor :=
  if isLineTerminator next_chr then
    (Except.ok (Token.new TokenKind.LineTerminator (Span.new start c.pos)), c)
  else if next_chr = '"' ∨ next_chr = squoteChar then StringLiteral.lex next_chr c start
  else if next_chr = backtickChar then TemplateLiteral.lex c start
  else if next_chr.isDigit then NumberLiteral.lex next_chr strict_mode c start
  else if isAlphabetic next_chr ∨ next_chr = '$' ∨ next_chr = '_' then
    Identifier.lex next_chr c start
  else if next_chr = ';' then
    (Except.ok (Token.new (TokenKind.Punctuator Punctuator.Semicolon) (Span.new start c.pos)), c)
  else if next_chr = ':' then
    (Except.ok (Token.new (TokenKind.Punctuator Punctuator.Colon) (Span.new start c.pos)), c)
  else if next_chr = '.' then SpreadLiteral.lex c start
  else if next_chr = '(' then
    (Except.ok (Token.new (TokenKind.Punctuator Punctuator.OpenParen) (Span.new start c.pos)), c)
  else if next_chr = ')' then
    (Except.ok (Token.new (TokenKind.Punctuator Punctuator.CloseParen) (Span.new start c.pos)), c)
  else if next_chr = ',' then
    (Except.ok (Token.new (TokenKind.Punctuator Punctuator.Comma) (Span.new start c.pos)), c)
  else if next_chr = lbraceChar then
    (Except.ok (Token.new (TokenKind.Punctuator Punctuator.OpenBlock) (Span.new start c.pos)), c)
  else if next_chr = rbraceChar then
    (Except.ok (Token.new (TokenKind.Punctuator Punctuator.CloseBlock) (Span.new start c.pos)), c)
  else if next_chr = '[' then
    (Except.ok (Token.new (TokenKind.Punctuator Punctuator.OpenBracket) (Span.new start c.pos)), c)
  else if next_chr = ']' then
    (Except.ok (Token.new (TokenKind.Punctuator Punctuator.CloseBracket) (Span.new start c.pos)), c)
  else if next_chr = '?' then
    (Except.ok (Token.new (TokenKind.Punctuator Punctuator.Question) (Span.new start c.pos)), c)
  else if next_chr = '/' then Comment.lex c start
  else if next_chr = '*' ∨ next_chr = '+' ∨ next_chr = '-' ∨ next_chr = '%' ∨
          next_chr = '|' ∨ next_chr = '&' ∨ next_chr = '^' ∨ next_chr = '=' ∨
          next_chr = '<' ∨ next_chr = '>' ∨ next_chr = '!' ∨ next_chr = '~' then
    Operator.lex next_chr c start
  else (Except.error (Error.syntactic (unexpectedMsg next_chr start)), c)

/-- Iteration step of `Lexer::next` (`lexer/mod.rs` lines 121-217) over the
cursor: the whitespace-skipping loop, the dispatch, and the comment filter. The
structural `fuel` argument bounds the comment-skip self-recursion of the
source; any fuel strictly above the number of remaining characters is
sufficient and all such fuels agree (proved below), so the bounded recursion
coincides with the unbounded recursion of the source. -/
def nextAuxF : Nat → Cursor → Option (Except Error Token) × Cursor
  | 0, c => (none, c)
  | fuel + 1, c =>
    let c1 := skipWs c
    match Cursor.next? c1 with
    | none => (none, c1)
    | some (next_chr, c2) =>
      let start := c1.pos
      let strict_mode := false
      match dispatchToken strict_mode next_chr start c2 with
      | (Except.ok t, c3) =>
        if t.kind = TokenKind.Comment then nextAuxF fuel c3 else (some (Except.ok t), c3)
      | (Except.error e, c3) => (some (Except.error e), c3)

/-- Step of the `Iterator` implementation for `Lexer` (`lexer/mod.rs` lines
121-217): returns the yielded item (`none` signalling end of sequence)
together with the updated lexer. The body reads and writes only the cursor. -/
def Lexer.next (l : Lexer) : Option (Except Error Token) × Lexer :=
  let r := nextAuxF (l.cursor.chars.length + 1) l.cursor
  (r.1, ⟨r.2, l.goal_symbol⟩)

/-- Whole yielded sequence of the lexer iterator, collected into a list; the
structural `fuel` bounds the number of pulls, and the fuel used by
`Lexer.collect` is sufficient because every yielded item consumes at least one
character (proved below). -/
def collectF : Nat → Lexer → List (Except Error Token)
  | 0, _ => []
  | fuel + 1, l =>
    match Lexer.next l with
    | (none, _) => []
    | (some r, l1) => r :: collectF fuel l1

def Lexer.collect (l : Lexer) : List (Except Error Token) :=
  collectF (l.cursor.chars.length + 1) l

/-- Sequence yielded for a given character list, starting from a fresh lexer. -/
def lexChars (input : List Char) : List (Except Error Token) :=
  Lexer.collect (Lexer.new input)

/-- Sequence yielded for a given string, starting from a fresh lexer. -/
def lexString (s : String) : List (Except Error Token) := lexChars s.data

theorem cursorAt_chars (l : List Char) (p : Position) : (cursorAt l p).chars = l := rfl

theorem cursorAt_pos (l : List Char) (p : Position) : (cursorAt l p).pos = p := rfl

theorem posLe_refl (p : Position) : Position.le p p := by
  unfold Position.le; omega

theorem posLe_of_lt {p q : Position} (h : Position.lt p q) : Position.le p q := by
  unfold Position.lt at h; unfold Position.le; omega

theorem posLt_advance (p : Position) (ch : Char) : Position.lt p (advancePos p ch) := by
  unfold advancePos; split <;> (unfold Position.lt; simp)

theorem posLe_advance (p : Position) (ch : Char) : Position.le p (advancePos p ch) :=
  posLe_of_lt (posLt_advance p ch)

theorem posLe_trans {p q r : Position} (h1 : Position.le p q) (h2 : Position.le q r) :
    Position.le p r := by
  unfold Position.le at h1 h2 ⊢; omega

theorem posLt_of_lt_of_le {p q r : Position} (h1 : Position.lt p q) (h2 : Position.le q r) :
    Position.lt p r := by
  unfold Position.lt at h1 ⊢; unfold Position.le at h2; omega

theorem next?_eq_none {c : Cursor} (h : Cursor.next? c = none) : c.chars = [] := by
  unfold Cursor.next? at h
  cases hc : c.chars with
  | nil => rfl
  | cons x rest => rw [hc] at h; simp at h

theorem next?_eq_some {c : Cursor} {ch : Char} {c2 : Cursor}
    (h : Cursor.next? c = some (ch, c2)) :
    c.chars = ch :: c2.chars ∧ c2.pos = advancePos c.pos ch := by
  obtain ⟨chars, li, co⟩ := c
  cases chars with
  | nil => simp [Cursor.next?] at h
  | cons x rest =>
    simp only [Cursor.next?, Option.some.injEq, Prod.mk.injEq] at h
    obtain ⟨hx, hc2⟩ := h
    subst hx
    subst hc2
    exact ⟨rfl, rfl⟩

theorem skipWsList_spec (l : List Char) : ∀ p : Position,
    ((skipWsList l p).chars.length ≤ l.length) ∧ Position.le p (skipWsList l p).pos := by
  induction l with
  | nil => intro p; simp [skipWsList, cursorAt_chars, cursorAt_pos, posLe_refl]
  | cons ch rest ih =>
    intro p
    unfold skipWsList
    split
    · exact ⟨Nat.le_succ_of_le (ih _).1, posLe_trans (posLe_advance p ch) (ih _).2⟩
    · simp [cursorAt_chars, cursorAt_pos, posLe_refl]

theorem skipWs_spec (c : Cursor) :
    ((skipWs c).chars.length ≤ c.chars.length) ∧ Position.le c.pos (skipWs c).pos :=
  skipWsList_spec c.chars c.pos

theorem runTail_spec (pred : Char → Bool) (l : List Char) : ∀ (p : Position) (acc : String),
    (((runTail pred l p acc).2).chars.length ≤ l.length) ∧
    Position.le p ((runTail pred l p acc).2).pos := by
  induction l with
  | nil => intro p acc; simp [runTail, cursorAt_chars, cursorAt_pos, posLe_refl]
  | cons ch rest ih =>
    intro p acc
    unfold runTail
    split
    · exact ⟨Nat.le_succ_of_le (ih _ _).1, posLe_trans (posLe_advance p ch) (ih _ _).2⟩
    · simp [cursorAt_chars, cursorAt_pos, posLe_refl]

theorem strTail_spec (q : Char) (l : List Char) : ∀ (p : Position) (esc : Bool) (acc : String),
    (((strTail q l p esc acc).2).chars.length ≤ l.length) ∧
    Position.le p ((strTail q l p esc acc).2).pos := by
  induction l with
  | nil => intro p esc acc; simp [strTail, cursorAt_chars, cursorAt_pos, posLe_refl]
  | cons ch rest ih =>
    intro p esc acc
    unfold strTail
    split
    · exact ⟨Nat.le_succ_of_le (ih _ _ _).1, posLe_trans (posLe_advance p ch) (ih _ _ _).2⟩
    split
    · simp [cursorAt_chars, cursorAt_pos, posLe_advance]
    split
    · exact ⟨Nat.le_succ_of_le (ih _ _ _).1, posLe_trans (posLe_advance p ch) (ih _ _ _).2⟩
    · exact ⟨Nat.le_succ_of_le (ih _ _ _).1, posLe_trans (posLe_advance p ch) (ih _ _ _).2⟩

theorem tmplTail_spec (l : List Char) :
    ∀ (p : Position) (depth : Nat) (pd : Bool) (acc : String),
    (((tmplTail l p depth pd acc).2).chars.length ≤ l.length) ∧
    Position.le p ((tmplTail l p depth pd acc).2).pos := by
  induction l with
  | nil => intro p depth pd acc; simp [tmplTail, cursorAt_chars, cursorAt_pos, posLe_refl]
  | cons ch rest ih =>
    intro p depth pd acc
    unfold tmplTail
    split
    · simp [cursorAt_chars, cursorAt_pos, posLe_advance]
    split
    · exact ⟨Nat.le_succ_of_le (ih _ _ _ _).1, posLe_trans (posLe_advance p ch) (ih _ _ _ _).2⟩
    split
    · exact ⟨Nat.le_succ_of_le (ih _ _ _ _).1, posLe_trans (posLe_advance p ch) (ih _ _ _ _).2⟩
    · exact ⟨Nat.le_succ_of_le (ih _ _ _ _).1, posLe_trans (posLe_advance p ch) (ih _ _ _ _).2⟩

theorem opTail_spec (l : List Char) : ∀ (p : Position) (lexeme : String),
    (((opTail l p lexeme).2).chars.length ≤ l.length) ∧
    Position.le p ((opTail l p lexeme).2).pos := by
  induction l with
  | nil => intro p lexeme; simp [opTail, cursorAt_chars, cursorAt_pos, posLe_refl]
  | cons ch rest ih =>
    intro p lexeme
    unfold opTail
    split
    · exact ⟨Nat.le_succ_of_le (ih _ _).1, posLe_trans (posLe_advance p ch) (ih _ _).2⟩
    · simp [cursorAt_chars, cursorAt_pos, posLe_refl]

theorem lineCommentTail_spec (l : List Char) : ∀ p : Position,
    ((lineCommentTail l p).chars.length ≤ l.length) ∧
    Position.le p (lineCommentTail l p).pos := by
  induction l with
  | nil => intro p; simp [lineCommentTail, cursorAt_chars, cursorAt_pos, posLe_refl]
  | cons ch rest ih =>
    intro p
    unfold lineCommentTail
    split
    · simp [cursorAt_chars, cursorAt_pos, posLe_refl]
    · exact ⟨Nat.le_succ_of_le (ih _).1, posLe_trans (posLe_advance p ch) (ih _).2⟩

theorem blockCommentTail_spec (l : List Char) : ∀ (p : Position) (sawStar : Bool),
    (((blockCommentTail l p sawStar).2).chars.length ≤ l.length) ∧
    Position.le p ((blockCommentTail l p sawStar).2).pos := by
  induction l with
  | nil => intro p sawStar; simp [blockCommentTail, cursorAt_chars, cursorAt_pos, posLe_refl]
  | cons ch rest ih =>
    intro p sawStar
    unfold blockCommentTail
    split
    · simp [cursorAt_chars, cursorAt_pos, posLe_advance]
    · exact ⟨Nat.le_succ_of_le (ih _ _).1, posLe_trans (posLe_advance p ch) (ih _ _).2⟩

theorem regexTail_spec (l : List Char) : ∀ (p : Position) (esc : Bool) (acc : String),
    (((regexTail l p esc acc).2).chars.length ≤ l.length) ∧
    Position.le p ((regexTail l p esc acc).2).pos := by
  induction l with
  | nil => intro p esc acc; simp [regexTail, cursorAt_chars, cursorAt_pos, posLe_refl]
  | cons ch rest ih =>
    intro p esc acc
    unfold regexTail
    split
    · exact ⟨Nat.le_succ_of_le (ih _ _ _).1, posLe_trans (posLe_advance p ch) (ih _ _ _).2⟩
    split
    · simp [cursorAt_chars, cursorAt_pos, posLe_advance]
    split
    · exact ⟨Nat.le_succ_of_le (ih _ _ _).1, posLe_trans (posLe_advance p ch) (ih _ _ _).2⟩
    · exact ⟨Nat.le_succ_of_le (ih _ _ _).1, posLe_trans (posLe_advance p ch) (ih _ _ _).2⟩

theorem runTail_len_le {pred : Char → Bool} {l : List Char} {p : Position} {acc : String}
    {n : Nat} (h : l.length ≤ n) : (((runTail pred l p acc).2).chars.length ≤ n) :=
  Nat.le_trans (runTail_spec pred l p acc).1 h

theorem identifier_lex_len (init : Char) (c : Cursor) (start : Position) :
    ((Identifier.lex init c start).2).chars.length ≤ c.chars.length := by
  simp only [Identifier.lex]
  exact (runTail_spec isIdentPart c.chars c.pos _).1

theorem identifier_lex_pos (init : Char) (c : Cursor) (start : Position) :
    Position.le c.pos ((Identifier.lex init c start).2).pos := by
  simp only [Identifier.lex]
  exact (runTail_spec isIdentPart c.chars c.pos _).2

theorem identifier_lex_ok (init : Char) (c : Cursor) (start : Position) :
    ∀ t : Token, (Identifier.lex init c start).1 = Except.ok t →
    t.span.start = start ∧ t.span.stop = ((Identifier.lex init c start).2).pos ∧
    t.kind.isRegex = false := by
  simp only [Identifier.lex]
  intro t ht
  injection ht with h
  subst h
  refine ⟨rfl, rfl, ?_⟩
  repeat' split
  all_goals rfl

theorem stringLit_lex_len (q : Char) (c : Cursor) (start : Position) :
    ((StringLiteral.lex q c start).2).chars.length ≤ c.chars.length := by
  unfold StringLiteral.lex
  split
  next s c1 heq =>
    have h := (strTail_spec q c.chars c.pos false ("")).1
    rw [heq] at h
    exact h
  next e c1 heq =>
    have h := (strTail_spec q c.chars c.pos false ("")).1
    rw [heq] at h
    exact h

theorem stringLit_lex_pos (q : Char) (c : Cursor) (start : Position) :
    Position.le c.pos ((StringLiteral.lex q c start).2).pos := by
  unfold StringLiteral.lex
  split
  next s c1 heq =>
    have h := (strTail_spec q c.chars c.pos false ("")).2
    rw [heq] at h
    exact h
  next e c1 heq =>
    have h := (strTail_spec q c.chars c.pos false ("")).2
    rw [heq] at h
    exact h

theorem stringLit_lex_ok (q : Char) (c : Cursor) (start : Position) :
    ∀ t : Token, (StringLiteral.lex q c start).1 = Except.ok t →
    t.span.start = start ∧ t.span.stop = ((StringLiteral.lex q c start).2).pos ∧
    t.kind.isRegex = false := by
  unfold StringLiteral.lex
  split
  next s c1 heq =>
    intro t ht
    injection ht with h
    subst h
    exact ⟨rfl, rfl, rfl⟩
  next e c1 heq =>
    intro t ht
    exact absurd ht (by simp)

theorem templateLit_lex_len (c : Cursor) (start : Position) :
    ((TemplateLiteral.lex c start).2).chars.length ≤ c.chars.length := by
  unfold TemplateLiteral.lex
  split
  next s c1 heq =>
    have h := (tmplTail_spec c.chars c.pos 0 false ("")).1
    rw [heq] at h
    exact h
  next e c1 heq =>
    have h := (tmplTail_spec c.chars c.pos 0 false ("")).1
    rw [heq] at h
    exact h

theorem templateLit_lex_pos (c : Cursor) (start : Position) :
    Position.le c.pos ((TemplateLiteral.lex c start).2).pos := by
  unfold TemplateLiteral.lex
  split
  next s c1 heq =>
    have h := (tmplTail_spec c.chars c.pos 0 false ("")).2
    rw [heq] at h
    exact h
  next e c1 heq =>
    have h := (tmplTail_spec c.chars c.pos 0 false ("")).2
    rw [heq] at h
    exact h

theorem templateLit_lex_ok (c : Cursor) (start : Position) :
    ∀ t : Token, (TemplateLiteral.lex c start).1 = Except.ok t →
    t.span.start = start ∧ t.span.stop = ((TemplateLiteral.lex c start).2).pos ∧
    t.kind.isRegex = false := by
  unfold TemplateLiteral.lex
  split
  next s c1 heq =>
    intro t ht
    injection ht with h
    subst h
    exact ⟨rfl, rfl, rfl⟩
  next e c1 heq =>
    intro t ht
    exact absurd ht (by simp)

theorem operator_lex_len (init : Char) (c : Cursor) (start : Position) :
    ((Operator.lex init c start).2).chars.length ≤ c.chars.length := by
  simp only [Operator.lex]
  exact (opTail_spec c.chars c.pos _).1

theorem operator_lex_pos (init : Char) (c : Cursor) (start : Position) :
    Position.le c.pos ((Operator.lex init c start).2).pos := by
  simp only [Operator.lex]
  exact (opTail_spec c.chars c.pos _).2

theorem operator_lex_ok (init : Char) (c : Cursor) (start : Position) :
    ∀ t : Token, (Operator.lex init c start).1 = Except.ok t →
    t.span.start = start ∧ t.span.stop = ((Operator.lex init c start).2).pos ∧
    t.kind.isRegex = false := by
  simp only [Operator.lex]
  intro t ht
  injection ht with h
  subst h
  exact ⟨rfl, rfl, rfl⟩

theorem spread_lex_len (c : Cursor) (start : Position) :
    ((SpreadLiteral.lex c start).2).chars.length ≤ c.chars.length := by
  unfold SpreadLiteral.lex
  split
  next d1 d2 rest heq =>
    split
    · simp only [cursorAt_chars, heq, List.length_cons]
      omega
    · exact Nat.le_refl _
  next heq => exact Nat.le_refl _

theorem spread_lex_pos (c : Cursor) (start : Position) :
    Position.le c.pos ((SpreadLiteral.lex c start).2).pos := by
  unfold SpreadLiteral.lex
  split
  next d1 d2 rest heq =>
    split
    · simp only [cursorAt_pos]
      exact posLe_trans (posLe_advance _ _) (posLe_advance _ _)
    · exact posLe_refl _
  next heq => exact posLe_refl _

theorem spread_lex_ok (c : Cursor) (start : Position) :
    ∀ t : Token, (SpreadLiteral.lex c start).1 = Except.ok t →
    t.span.start = start ∧ t.span.stop = ((SpreadLiteral.lex c start).2).pos ∧
    t.kind.isRegex = false := by
  unfold SpreadLiteral.lex
  split
  next d1 d2 rest heq =>
    split
    · intro t ht
      injection ht with h
      subst h
      exact ⟨rfl, (cursorAt_pos _ _).symm, rfl⟩
    · intro t ht
      injection ht with h
      subst h
      exact ⟨rfl, rfl, rfl⟩
  next heq =>
    intro t ht
    injection ht with h
    subst h
    exact ⟨rfl, rfl, rfl⟩

theorem numSign_spec (c2 : Cursor) :
    (((numSign c2).2).chars.length ≤ c2.chars.length) ∧
    Position.le c2.pos ((numSign c2).2).pos := by
  unfold numSign
  split
  next s rest2 heq =>
    split
    · constructor
      · rw [heq]
        simp only [cursorAt_chars, List.length_cons]
        omega
      · simp only [cursorAt_pos]
        exact posLe_advance _ _
    · exact ⟨Nat.le_refl _, posLe_refl _⟩
  next heq => exact ⟨Nat.le_refl _, posLe_refl _⟩

theorem numExp_spec (acc : String) (c1 : Cursor) :
    (((numExp acc c1).2).chars.length ≤ c1.chars.length) ∧
    Position.le c1.pos ((numExp acc c1).2).pos := by
  unfold numExp
  split
  next ch rest heq =>
    split
    · have hs := numSign_spec (cursorAt rest (advancePos c1.pos ch))
      rw [cursorAt_chars, cursorAt_pos] at hs
      dsimp only
      split
      all_goals
        refine ⟨Nat.le_trans (runTail_spec _ _ _ _).1 (Nat.le_trans hs.1 ?_),
          posLe_trans (posLe_advance _ _) (posLe_trans hs.2 (runTail_spec _ _ _ _).2)⟩
      all_goals rw [heq]; simp only [List.length_cons]; omega
    · exact ⟨Nat.le_refl _, posLe_refl _⟩
  next heq => exact ⟨Nat.le_refl _, posLe_refl _⟩

theorem numFrac_spec (acc : String) (c1 : Cursor) :
    (((numFrac acc c1).2).chars.length ≤ c1.chars.length) ∧
    Position.le c1.pos ((numFrac acc c1).2).pos := by
  unfold numFrac
  split
  next ch rest heq =>
    split
    · refine ⟨Nat.le_trans (numExp_spec _ _).1 ?_,
        posLe_trans (posLe_advance _ _)
          (posLe_trans (runTail_spec _ _ _ _).2 (numExp_spec _ _).2)⟩
      refine Nat.le_trans (runTail_spec _ _ _ _).1 ?_
      rw [heq]
      simp only [List.length_cons]
      omega
    · exact ⟨(numExp_spec _ _).1, (numExp_spec _ _).2⟩
  next heq => exact ⟨Nat.le_refl _, posLe_refl _⟩

theorem numberLit_lex_len (init : Char) (strict : Bool) (c : Cursor) (start : Position) :
    ((NumberLiteral.lex init strict c start).2).chars.length ≤ c.chars.length := by
  unfold NumberLiteral.lex
  dsimp only
  split
  · -- init = '0'
    split
    next ch rest heq =>
      split
      · split
        all_goals
          refine Nat.le_trans (runTail_spec _ _ _ _).1 ?_
          rw [heq]; simp only [List.length_cons]; omega
      split
      · split
        all_goals
          refine Nat.le_trans (runTail_spec _ _ _ _).1 ?_
          rw [heq]; simp only [List.length_cons]; omega
      split
      · split
        all_goals
          refine Nat.le_trans (runTail_spec _ _ _ _).1 ?_
          rw [heq]; simp only [List.length_cons]; omega
      split
      · split
        · exact Nat.le_refl _
        · exact (runTail_spec _ _ _ _).1
      · split
        next s c2 heq2 =>
          have h := (numFrac_spec (String.singleton init) c).1
          rw [heq2] at h
          exact h
        next e c2 heq2 =>
          have h := (numFrac_spec (String.singleton init) c).1
          rw [heq2] at h
          exact h
    next heq => exact Nat.le_refl _
  · -- decimal with nonzero leading digit
    split
    next s c2 heq2 =>
      have h := (numFrac_spec (runTail Char.isDigit c.chars c.pos (String.singleton init)).1
        (runTail Char.isDigit c.chars c.pos (String.singleton init)).2).1
      rw [heq2] at h
      exact Nat.le_trans h (runTail_spec _ _ _ _).1
    next e c2 heq2 =>
      have h := (numFrac_spec (runTail Char.isDigit c.chars c.pos (String.singleton init)).1
        (runTail Char.isDigit c.chars c.pos (String.singleton init)).2).1
      rw [heq2] at h
      exact Nat.le_trans h (runTail_spec _ _ _ _).1

theorem numberLit_lex_pos (init : Char) (strict : Bool) (c : Cursor) (start : Position) :
    Position.le c.pos ((NumberLiteral.lex init strict c start).2).pos := by
  unfold NumberLiteral.lex
  dsimp only
  split
  · split
    next ch rest heq =>
      split
      · split
        all_goals exact posLe_trans (posLe_advance _ _) (runTail_spec _ _ _ _).2
      split
      · split
        all_goals exact posLe_trans (posLe_advance _ _) (runTail_spec _ _ _ _).2
      split
      · split
        all_goals exact posLe_trans (posLe_advance _ _) (runTail_spec _ _ _ _).2
      split
      · split
        · exact posLe_refl _
        · exact (runTail_spec _ _ _ _).2
      · split
        next s c2 heq2 =>
          have h := (numFrac_spec (String.singleton init) c).2
          rw [heq2] at h
          exact h
        next e c2 heq2 =>
          have h := (numFrac_spec (String.singleton init) c).2
          rw [heq2] at h
          exact h
    next heq => exact posLe_refl _
  · split
    next s c2 heq2 =>
      have h := (numFrac_spec (runTail Char.isDigit c.chars c.pos (String.singleton init)).1
        (runTail Char.isDigit c.chars c.pos (String.singleton init)).2).2
      rw [heq2] at h
      exact posLe_trans (runTail_spec _ _ _ _).2 h
    next e c2 heq2 =>
      have h := (numFrac_spec (runTail Char.isDigit c.chars c.pos (String.singleton init)).1
        (runTail Char.isDigit c.chars c.pos (String.singleton init)).2).2
      rw [heq2] at h
      exact posLe_trans (runTail_spec _ _ _ _).2 h

theorem numberLit_lex_ok (init : Char) (strict : Bool) (c : Cursor) (start : Position) :
    ∀ t : Token, (NumberLiteral.lex init strict c start).1 = Except.ok t →
    t.span.start = start ∧ t.span.stop = ((NumberLiteral.lex init strict c start).2).pos ∧
    t.kind.isRegex = false := by
  unfold NumberLiteral.lex
  dsimp only
  split
  · split
    next ch rest heq =>
      split
      · split
        · intro t ht
          exact absurd ht (by simp)
        · intro t ht
          injection ht with h
          subst h
          exact ⟨rfl, rfl, rfl⟩
      split
      · split
        · intro t ht
          exact absurd ht (by simp)
        · intro t ht
          injection ht with h
          subst h
          exact ⟨rfl, rfl, rfl⟩
      split
      · split
        · intro t ht
          exact absurd ht (by simp)
        · intro t ht
          injection ht with h
          subst h
          exact ⟨rfl, rfl, rfl⟩
      split
      · split
        · intro t ht
          exact absurd ht (by simp)
        · intro t ht
          injection ht with h
          subst h
          exact ⟨rfl, rfl, rfl⟩
      · split
        next s c2 heq2 =>
          intro t ht
          injection ht with h
          subst h
          exact ⟨rfl, rfl, rfl⟩
        next e c2 heq2 =>
          intro t ht
          exact absurd ht (by simp)
    next heq =>
      intro t ht
      injection ht with h
      subst h
      exact ⟨rfl, rfl, rfl⟩
  · split
    next s c2 heq2 =>
      intro t ht
      injection ht with h
      subst h
      exact ⟨rfl, rfl, rfl⟩
    next e c2 heq2 =>
      intro t ht
      exact absurd ht (by simp)

theorem comment_lex_len (c : Cursor) (start : Position) :
    ((Comment.lex c start).2).chars.length ≤ c.chars.length := by
  unfold Comment.lex
  split
  next ch rest heq =>
    split
    · have h := (lineCommentTail_spec rest (advancePos c.pos ch)).1
      calc ((lineCommentTail rest (advancePos c.pos ch)).chars.length)
          ≤ rest.length := h
        _ ≤ c.chars.length := by rw [heq]; simp
    split
    · split
      next u c1 heq2 =>
        have h := (blockCommentTail_spec rest (advancePos c.pos ch) false).1
        rw [heq2] at h
        calc c1.chars.length ≤ rest.length := h
          _ ≤ c.chars.length := by rw [heq]; simp
      next e c1 heq2 =>
        have h := (blockCommentTail_spec rest (advancePos c.pos ch) false).1
        rw [heq2] at h
        calc c1.chars.length ≤ rest.length := h
          _ ≤ c.chars.length := by rw [heq]; simp
    split
    · simp [cursorAt_chars, heq]
    · exact Nat.le_refl _
  next heq => exact Nat.le_refl _

theorem comment_lex_pos (c : Cursor) (start : Position) :
    Position.le c.pos ((Comment.lex c start).2).pos := by
  unfold Comment.lex
  split
  next ch rest heq =>
    split
    · exact posLe_trans (posLe_advance _ _) (lineCommentTail_spec rest (advancePos c.pos ch)).2
    split
    · split
      next u c1 heq2 =>
        have h := (blockCommentTail_spec rest (advancePos c.pos ch) false).2
        rw [heq2] at h
        exact posLe_trans (posLe_advance _ _) h
      next e c1 heq2 =>
        have h := (blockCommentTail_spec rest (advancePos c.pos ch) false).2
        rw [heq2] at h
        exact posLe_trans (posLe_advance _ _) h
    split
    · simp only [cursorAt_pos]
      exact posLe_advance _ _
    · exact posLe_refl _
  next heq => exact posLe_refl _

theorem comment_lex_ok (c : Cursor) (start : Position) :
    ∀ t : Token, (Comment.lex c start).1 = Except.ok t →
    t.span.start = start ∧ t.span.stop = ((Comment.lex c start).2).pos ∧
    t.kind.isRegex = false := by
  unfold Comment.lex
  split
  next ch rest heq =>
    split
    · intro t ht
      injection ht with h
      subst h
      exact ⟨rfl, rfl, rfl⟩
    split
    · split
      next u c1 heq2 =>
        intro t ht
        injection ht with h
        subst h
        exact ⟨rfl, rfl, rfl⟩
      next e c1 heq2 =>
        intro t ht
        exact absurd ht (by simp)
    split
    · intro t ht
      injection ht with h
      subst h
      exact ⟨rfl, (cursorAt_pos _ _).symm, rfl⟩
    · intro t ht
      injection ht with h
      subst h
      exact ⟨rfl, rfl, rfl⟩
  next heq =>
    intro t ht
    injection ht with h
    subst h
    exact ⟨rfl, rfl, rfl⟩

theorem ite_len_le {c : Prop} [Decidable c] {a b : (Except Error Token) × Cursor} {n : Nat}
    (ha : (a.2).chars.length ≤ n) (hb : (b.2).chars.length ≤ n) :
    (((if c then a else b) : (Except Error Token) × Cursor).2).chars.length ≤ n := by
  split
  · exact ha
  · exact hb

theorem ite_pos_le {c : Prop} [Decidable c] {a b : (Except Error Token) × Cursor}
    {p : Position} (ha : Position.le p (a.2).pos) (hb : Position.le p (b.2).pos) :
    Position.le p (((if c then a else b) : (Except Error Token) × Cursor).2).pos := by
  split
  · exact ha
  · exact hb

def OkSpec (start : Position) (r : (Except Error Token) × Cursor) : Prop :=
  ∀ t : Token, r.1 = Except.ok t →
    t.span.start = start ∧ t.span.stop = (r.2).pos ∧ t.kind.isRegex = false

theorem ite_ok {c : Prop} [Decidable c] {a b : (Except Error Token) × Cursor}
    {start : Position} (ha : OkSpec start a) (hb : OkSpec start b) :
    OkSpec start (if c then a else b) := by
  split
  · exact ha
  · exact hb

theorem direct_ok {tok : Token} {c2 : Cursor} {start : Position}
    (h1 : tok.span.start = start) (h2 : tok.span.stop = c2.pos)
    (h3 : tok.kind.isRegex = false) :
    OkSpec start ((Except.ok tok, c2) : (Except Error Token) × Cursor) := by
  intro t ht
  injection ht with h
  subst h
  exact ⟨h1, h2, h3⟩

theorem error_ok {e : Error} {c2 : Cursor} {start : Position} :
    OkSpec start ((Except.error e, c2) : (Except Error Token) × Cursor) := by
  intro t ht
  exact absurd ht (by simp)

theorem dispatchToken_len (strict_mode : Bool) (next_chr : Char) (start : Position)
    (c : Cursor) :
    ((dispatchToken strict_mode next_chr start c).2).chars.length ≤ c.chars.length := by
  unfold dispatchToken
  exact ite_len_le (Nat.le_refl _)
    (ite_len_le (stringLit_lex_len _ _ _)
    (ite_len_le (templateLit_lex_len _ _)
    (ite_len_le (numberLit_lex_len _ _ _ _)
    (ite_len_le (identifier_lex_len _ _ _)
    (ite_len_le (Nat.le_refl _)
    (ite_len_le (Nat.le_refl _)
    (ite_len_le (spread_lex_len _ _)
    (ite_len_le (Nat.le_refl _)
    (ite_len_le (Nat.le_refl _)
    (ite_len_le (Nat.le_refl _)
    (ite_len_le (Nat.le_refl _)
    (ite_len_le (Nat.le_refl _)
    (ite_len_le (Nat.le_refl _)
    (ite_len_le (Nat.le_refl _)
    (ite_len_le (Nat.le_refl _)
    (ite_len_le (comment_lex_len _ _)
    (ite_len_le (operator_lex_len _ _ _)
    (Nat.le_refl _))))))))))))))))))

theorem dispatchToken_pos (strict_mode : Bool) (next_chr : Char) (start : Position)
    (c : Cursor) :
    Position.le c.pos ((dispatchToken strict_mode next_chr start c).2).pos := by
  unfold dispatchToken
  exact ite_pos_le (posLe_refl _)
    (ite_pos_le (stringLit_lex_pos _ _ _)
    (ite_pos_le (templateLit_lex_pos _ _)
    (ite_pos_le (numberLit_lex_pos _ _ _ _)
    (ite_pos_le (identifier_lex_pos _ _ _)
    (ite_pos_le (posLe_refl _)
    (ite_pos_le (posLe_refl _)
    (ite_pos_le (spread_lex_pos _ _)
    (ite_pos_le (posLe_refl _)
    (ite_pos_le (posLe_refl _)
    (ite_pos_le (posLe_refl _)
    (ite_pos_le (posLe_refl _)
    (ite_pos_le (posLe_refl _)
    (ite_pos_le (posLe_refl _)
    (ite_pos_le (posLe_refl _)
    (ite_pos_le (posLe_refl _)
    (ite_pos_le (comment_lex_pos _ _)
    (ite_pos_le (operator_lex_pos _ _ _)
    (posLe_refl _))))))))))))))))))

theorem dispatchToken_ok (strict_mode : Bool) (next_chr : Char) (start : Position)
    (c : Cursor) : OkSpec start (dispatchToken strict_mode next_chr start c) := by
  unfold dispatchToken
  exact ite_ok (direct_ok rfl rfl rfl)
    (ite_ok (stringLit_lex_ok _ _ _)
    (ite_ok (templateLit_lex_ok _ _)
    (ite_ok (numberLit_lex_ok _ _ _ _)
    (ite_ok (identifier_lex_ok _ _ _)
    (ite_ok (direct_ok rfl rfl rfl)
    (ite_ok (direct_ok rfl rfl rfl)
    (ite_ok (spread_lex_ok _ _)
    (ite_ok (direct_ok rfl rfl rfl)
    (ite_ok (direct_ok rfl rfl rfl)
    (ite_ok (direct_ok rfl rfl rfl)
    (ite_ok (direct_ok rfl rfl rfl)
    (ite_ok (direct_ok rfl rfl rfl)
    (ite_ok (direct_ok rfl rfl rfl)
    (ite_ok (direct_ok rfl rfl rfl)
    (ite_ok (direct_ok rfl rfl rfl)
    (ite_ok (comment_lex_ok _ _)
    (ite_ok (operator_lex_ok _ _ _)
    error_ok)))))))))))))))))

theorem nextAuxF_zero (c : Cursor) : nextAuxF 0 c = (none, c) := rfl

theorem nextAuxF_succ (f : Nat) (c : Cursor) :
    nextAuxF (f + 1) c =
      (match Cursor.next? (skipWs c) with
      | none => (none, skipWs c)
      | some (next_chr, c2) =>
        match dispatchToken false next_chr (skipWs c).pos c2 with
        | (Except.ok t, c3) =>
          if t.kind = TokenKind.Comment then nextAuxF f c3 else (some (Except.ok t), c3)
        | (Except.error e, c3) => (some (Except.error e), c3)) := rfl

theorem nextAuxF_spec (fuel : Nat) : ∀ c : Cursor, c.chars.length < fuel →
    (((nextAuxF fuel c).2).chars.length ≤ c.chars.length) ∧
    ((nextAuxF fuel c).1.isSome = true →
      ((nextAuxF fuel c).2).chars.length < c.chars.length) ∧
    ((nextAuxF fuel c).1 = none → ((nextAuxF fuel c).2).chars = []) ∧
    (∀ fuel2 : Nat, c.chars.length < fuel2 → nextAuxF fuel c = nextAuxF fuel2 c) := by
  induction fuel with
  | zero => intro c hc; exact absurd hc (Nat.not_lt_zero _)
  | succ f ih =>
    intro c hc
    rcases h1 : Cursor.next? (skipWs c) with _ | ⟨next_chr, c2⟩
    · have hempty : (skipWs c).chars = [] := next?_eq_none h1
      have hres : nextAuxF (f + 1) c = (none, skipWs c) := by
        simp [nextAuxF_succ, h1]
      refine ⟨?_, ?_, ?_, ?_⟩
      · rw [hres]; exact (skipWs_spec c).1
      · rw [hres]; intro hs; simp at hs
      · rw [hres]; intro _; exact hempty
      · intro fuel2 hf2
        rcases fuel2 with _ | f2
        · omega
        · rw [hres]
          exact (by simp [nextAuxF_succ, h1] :
            nextAuxF (f2 + 1) c = (none, skipWs c)).symm
    · have hadv := next?_eq_some h1
      have hlen1 : (skipWs c).chars.length ≤ c.chars.length := (skipWs_spec c).1
      have hlen2 : c2.chars.length + 1 ≤ c.chars.length := by
        rw [hadv.1] at hlen1
        simpa using hlen1
      rcases h2 : dispatchToken false next_chr (skipWs c).pos c2 with ⟨res, c3⟩
      have hlen3 : c3.chars.length ≤ c2.chars.length := by
        have h := dispatchToken_len false next_chr (skipWs c).pos c2
        rw [h2] at h
        exact h
      cases res with
      | ok t0 =>
        by_cases hk : t0.kind = TokenKind.Comment
        · have hres : nextAuxF (f + 1) c = nextAuxF f c3 := by
            simp [nextAuxF_succ, h1, h2, hk]
          have hc3 : c3.chars.length < f := by omega
          obtain ⟨ih1, ih2, ih3, ih4⟩ := ih c3 hc3
          refine ⟨?_, ?_, ?_, ?_⟩
          · rw [hres]; omega
          · rw [hres]; intro _; omega
          · rw [hres]; exact ih3
          · intro fuel2 hf2
            rcases fuel2 with _ | f2
            · omega
            · rw [hres, ih4 f2 (by omega)]
              exact (by simp [nextAuxF_succ, h1, h2, hk] :
                nextAuxF (f2 + 1) c = nextAuxF f2 c3).symm
        · have hres : nextAuxF (f + 1) c = (some (Except.ok t0), c3) := by
            simp [nextAuxF_succ, h1, h2, hk]
          refine ⟨?_, ?_, ?_, ?_⟩
          · rw [hres]; show c3.chars.length ≤ c.chars.length; omega
          · rw [hres]; intro _; show c3.chars.length < c.chars.length; omega
          · rw [hres]; intro hnone; simp at hnone
          · intro fuel2 hf2
            rcases fuel2 with _ | f2
            · omega
            · rw [hres]
              exact (by simp [nextAuxF_succ, h1, h2, hk] :
                nextAuxF (f2 + 1) c = (some (Except.ok t0), c3)).symm
      | error e0 =>
        have hres : nextAuxF (f + 1) c = (some (Except.error e0), c3) := by
          simp [nextAuxF_succ, h1, h2]
        refine ⟨?_, ?_, ?_, ?_⟩
        · rw [hres]; show c3.chars.length ≤ c.chars.length; omega
        · rw [hres]; intro _; show c3.chars.length < c.chars.length; omega
        · rw [hres]; intro hnone; simp at hnone
        · intro fuel2 hf2
          rcases fuel2 with _ | f2
          · omega
          · rw [hres]
            exact (by simp [nextAuxF_succ, h1, h2] :
              nextAuxF (f2 + 1) c = (some (Except.error e0), c3)).symm

theorem nextAuxF_ok_kind (fuel : Nat) : ∀ (c : Cursor) (t : Token) (c4 : Cursor),
    nextAuxF fuel c = (some (Except.ok t), c4) →
    t.kind ≠ TokenKind.Comment ∧ t.kind.isRegex = false := by
  induction fuel with
  | zero =>
    intro c t c4 h
    rw [nextAuxF_zero] at h
    simp at h
  | succ f ih =>
    intro c t c4 h
    rcases h1 : Cursor.next? (skipWs c) with _ | ⟨next_chr, c2⟩
    · rw [(by simp [nextAuxF_succ, h1] : nextAuxF (f + 1) c = (none, skipWs c))] at h
      simp at h
    · rcases h2 : dispatchToken false next_chr (skipWs c).pos c2 with ⟨res, c3⟩
      cases res with
      | ok t0 =>
        by_cases hk : t0.kind = TokenKind.Comment
        · rw [(by simp [nextAuxF_succ, h1, h2, hk] :
            nextAuxF (f + 1) c = nextAuxF f c3)] at h
          exact ih c3 t c4 h
        · rw [(by simp [nextAuxF_succ, h1, h2, hk] :
            nextAuxF (f + 1) c = (some (Except.ok t0), c3))] at h
          simp only [Prod.mk.injEq, Option.some.injEq, Except.ok.injEq] at h
          obtain ⟨ht, hc⟩ := h
          subst ht
          refine ⟨hk, ?_⟩
          exact (dispatchToken_ok false next_chr (skipWs c).pos c2 t0 (by rw [h2])).2.2
      | error e0 =>
        rw [(by simp [nextAuxF_succ, h1, h2] :
          nextAuxF (f + 1) c = (some (Except.error e0), c3))] at h
        simp at h

/-- Cursor states the iteration step passes through before reaching the first
character of the finally dispatched lexeme: starting from `c`, the lexer skips
whitespace, and possibly consumes a whole comment and starts over. `d` is a
cursor the lexer actually held immediately before consuming the first
character of a lexeme. -/
inductive PreLexemeReach : Cursor → Cursor → Prop where
  | ws (c : Cursor) : PreLexemeReach c (skipWs c)
  | comment (c : Cursor) (ch : Char) (c2 : Cursor) (t : Token) (c3 : Cursor) (d : Cursor)
      (h1 : Cursor.next? (skipWs c) = some (ch, c2))
      (h2 : dispatchToken false ch (skipWs c).pos c2 = (Except.ok t, c3))
      (h3 : t.kind = TokenKind.Comment)
      (h4 : PreLexemeReach c3 d) : PreLexemeReach c d

/-- Cursor state the iteration step holds immediately before consuming the first
character of the lexeme of the token or error it finally produces: whitespace is
skipped, and after a dispatched Comment-kind token the process repeats from the
cursor past that comment, mirroring the fuel structure of `nextAuxF`. -/
def preLexemeF : Nat → Cursor → Cursor
  | 0, c => skipWs c
  | fuel + 1, c =>
    match Cursor.next? (skipWs c) with
    | none => skipWs c
    | some (next_chr, c2) =>
      match dispatchToken false next_chr (skipWs c).pos c2 with
      | (Except.ok t, c3) =>
        if t.kind = TokenKind.Comment then preLexemeF fuel c3 else skipWs c
      | (Except.error _, _) => skipWs c

theorem preLexemeF_succ (f : Nat) (c : Cursor) :
    preLexemeF (f + 1) c =
      (match Cursor.next? (skipWs c) with
      | none => skipWs c
      | some (next_chr, c2) =>
        match dispatchToken false next_chr (skipWs c).pos c2 with
        | (Except.ok t, c3) =>
          if t.kind = TokenKind.Comment then preLexemeF f c3 else skipWs c
        | (Except.error _, _) => skipWs c) := rfl

/-- Cursor state the lexer holds immediately before the first character of the
lexeme of the item the next `Lexer.next` call produces. -/
def preLexeme (l : Lexer) : Cursor := preLexemeF (l.cursor.chars.length + 1) l.cursor

theorem nextAuxF_span (fuel : Nat) : ∀ (c : Cursor) (t : Token) (c4 : Cursor),
    nextAuxF fuel c = (some (Except.ok t), c4) →
    Position.lt t.span.start t.span.stop ∧
    t.span.start = (preLexemeF fuel c).pos ∧
    PreLexemeReach c (preLexemeF fuel c) ∧
    ∃ (ch : Char) (c2 : Cursor), Cursor.next? (preLexemeF fuel c) = some (ch, c2) ∧
      (dispatchToken false ch (preLexemeF fuel c).pos c2).1 = Except.ok t := by
  induction fuel with
  | zero =>
    intro c t c4 h
    rw [nextAuxF_zero] at h
    simp at h
  | succ f ih =>
    intro c t c4 h
    rcases h1 : Cursor.next? (skipWs c) with _ | ⟨next_chr, c2⟩
    · rw [(by simp [nextAuxF_succ, h1] : nextAuxF (f + 1) c = (none, skipWs c))] at h
      simp at h
    · rcases h2 : dispatchToken false next_chr (skipWs c).pos c2 with ⟨res, c3⟩
      cases res with
      | ok t0 =>
        by_cases hk : t0.kind = TokenKind.Comment
        · rw [(by simp [nextAuxF_succ, h1, h2, hk] :
            nextAuxF (f + 1) c = nextAuxF f c3)] at h
          rw [(by simp [preLexemeF_succ, h1, h2, hk] :
            preLexemeF (f + 1) c = preLexemeF f c3)]
          obtain ⟨hlt, hstart, hreach, hex⟩ := ih c3 t c4 h
          exact ⟨hlt, hstart,
            PreLexemeReach.comment c next_chr c2 t0 c3 (preLexemeF f c3) h1 h2 hk hreach, hex⟩
        · rw [(by simp [nextAuxF_succ, h1, h2, hk] :
            nextAuxF (f + 1) c = (some (Except.ok t0), c3))] at h
          rw [(by simp [preLexemeF_succ, h1, h2, hk] :
            preLexemeF (f + 1) c = skipWs c)]
          simp only [Prod.mk.injEq, Option.some.injEq, Except.ok.injEq] at h
          obtain ⟨ht, hc⟩ := h
          subst ht
          obtain ⟨hstart, hstop, _⟩ :=
            dispatchToken_ok false next_chr (skipWs c).pos c2 t0 (by rw [h2])
          refine ⟨?_, hstart, PreLexemeReach.ws c, next_chr, c2, h1, by rw [h2]⟩
          rw [hstart, hstop, h2]
          have hc2pos : Position.lt (skipWs c).pos c2.pos := by
            rw [(next?_eq_some h1).2]
            exact posLt_advance _ _
          have hc3pos : Position.le c2.pos c3.pos := by
            have h := dispatchToken_pos false next_chr (skipWs c).pos c2
            rw [h2] at h
            exact h
          exact posLt_of_lt_of_le hc2pos hc3pos
      | error e0 =>
        rw [(by simp [nextAuxF_succ, h1, h2] :
          nextAuxF (f + 1) c = (some (Except.error e0), c3))] at h
        simp at h

theorem Lexer.next_eq (l : Lexer) :
    Lexer.next l = ((nextAuxF (l.cursor.chars.length + 1) l.cursor).1,
      ⟨(nextAuxF (l.cursor.chars.length + 1) l.cursor).2, l.goal_symbol⟩) := rfl

theorem Lexer.next_to_aux {l : Lexer} {t : Token} {l2 : Lexer}
    (h : Lexer.next l = (some (Except.ok t), l2)) :
    nextAuxF (l.cursor.chars.length + 1) l.cursor = (some (Except.ok t), l2.cursor) := by
  rw [Lexer.next_eq] at h
  rcases hr : nextAuxF (l.cursor.chars.length + 1) l.cursor with ⟨r1, c1⟩
  rw [hr] at h
  simp only [Prod.mk.injEq] at h
  obtain ⟨ha, hb⟩ := h
  rw [ha, ← hb]

theorem collectF_succ (f : Nat) (l : Lexer) :
    collectF (f + 1) l =
      (match Lexer.next l with
      | (none, _) => []
      | (some r, l1) => r :: collectF f l1) := rfl

theorem collectF_goal (f : Nat) : ∀ (c : Cursor) (g1 g2 : InputElement),
    collectF f ⟨c, g1⟩ = collectF f ⟨c, g2⟩ := by
  induction f with
  | zero => intro c g1 g2; rfl
  | succ f ih =>
    intro c g1 g2
    rcases hr : nextAuxF (c.chars.length + 1) c with ⟨r1, c1⟩
    have e1 : Lexer.next ⟨c, g1⟩ = (r1, ⟨c1, g1⟩) := by
      rw [Lexer.next_eq]
      dsimp only
      rw [hr]
    have e2 : Lexer.next ⟨c, g2⟩ = (r1, ⟨c1, g2⟩) := by
      rw [Lexer.next_eq]
      dsimp only
      rw [hr]
    cases r1 with
    | none => simp only [collectF_succ, e1, e2]
    | some r0 =>
      simp only [collectF_succ, e1, e2]
      rw [ih c1 g1 g2]

theorem collectF_mem_ok (f : Nat) : ∀ (l : Lexer) (r : Except Error Token) (t : Token),
    r ∈ collectF f l → r = Except.ok t →
    t.kind ≠ TokenKind.Comment ∧ t.kind.isRegex = false := by
  induction f with
  | zero =>
    intro l r t hr ht
    simp [collectF] at hr
  | succ f ih =>
    intro l r t hr ht
    rcases hn : Lexer.next l with ⟨r1, l1⟩
    cases r1 with
    | none =>
      simp only [collectF_succ, hn] at hr
      simp at hr
    | some r0 =>
      simp only [collectF_succ, hn] at hr
      rcases List.mem_cons.mp hr with hcase | hcase
      · subst ht
        have hn2 : Lexer.next l = (some (Except.ok t), l1) := by rw [hn, ← hcase]
        exact nextAuxF_ok_kind _ _ _ _ (Lexer.next_to_aux hn2)
      · exact ih l1 r t hcase ht

theorem advanceMany_nil (p : Position) : advanceMany p [] = p := rfl

theorem advanceMany_cons (p : Position) (w : Char) (ws : List Char) :
    advanceMany p (w :: ws) = advanceMany (advancePos p w) ws := rfl

theorem skipWsList_append (ws : List Char) : ∀ (l : List Char) (p : Position),
    (∀ x ∈ ws, Lexer.is_whitespace x = true) →
    skipWsList (ws ++ l) p = skipWsList l (advanceMany p ws) := by
  induction ws with
  | nil => intro l p h; rfl
  | cons w ws ih =>
    intro l p h
    have hw : Lexer.is_whitespace w = true := h w (List.mem_cons_self _ _)
    calc skipWsList ((w :: ws) ++ l) p
        = skipWsList (ws ++ l) (advancePos p w) := by simp [skipWsList, hw]
      _ = skipWsList l (advanceMany (advancePos p w) ws) :=
          ih l (advancePos p w) (fun x hx => h x (List.mem_cons_of_mem _ hx))
      _ = skipWsList l (advanceMany p (w :: ws)) := rfl

theorem skipWsList_stop {ch : Char} (hch : Lexer.is_whitespace ch = false)
    (rest : List Char) (p : Position) :
    skipWsList (ch :: rest) p = cursorAt (ch :: rest) p := by
  simp [skipWsList, hch]

theorem skipWsList_all (l : List Char) (p : Position)
    (h : ∀ x ∈ l, Lexer.is_whitespace x = true) :
    skipWsList l p = cursorAt [] (advanceMany p l) := by
  have happ := skipWsList_append l [] p h
  rw [List.append_nil] at happ
  rw [happ]
  rfl

theorem lineterm_not_ws {ch : Char} (h : isLineTerminator ch = true) :
    Lexer.is_whitespace ch = false := by
  unfold isLineTerminator at h
  simp only [Bool.or_eq_true, decide_eq_true_eq] at h
  rcases h with ((h | h) | h) | h <;> subst h <;> decide

theorem Lexer.new_cursor (input : List Char) : (Lexer.new input).cursor = Cursor.new input := rfl

theorem Lexer.new_goal (input : List Char) :
    (Lexer.new input).goal_symbol = InputElement.default := rfl

theorem Cursor.new_chars (input : List Char) : (Cursor.new input).chars = input := rfl

theorem Cursor.new_pos (input : List Char) : (Cursor.new input).pos = ⟨1, 1⟩ := rfl

/-- C1: for every input, the token sequence produced by the Lexer's iterator never
contains a Comment-kind token — whenever a dispatch step produces a token whose kind
is Comment, that token is discarded and the request is repeated, so every value
yielded to the consumer is either a non-Comment token or an error. -/
theorem c1_no_comment_tokens (input : List Char) (r : Except Error Token) (t : Token)
    (hr : r ∈ lexChars input) (ht : r = Except.ok t) :
    t.kind ≠ TokenKind.Comment :=
  (collectF_mem_ok ((Lexer.new input).cursor.chars.length + 1) (Lexer.new input) r t hr ht).1

theorem c1_no_comment_tokens_witness :
    ((Except.ok (Token.new (TokenKind.Punctuator Punctuator.Semicolon)
        (Span.new ⟨1, 8⟩ ⟨1, 9⟩)) : Except Error Token) ∈ lexChars ("/* c */;".data)) ∧
    (Token.new (TokenKind.Punctuator Punctuator.Semicolon)
        (Span.new ⟨1, 8⟩ ⟨1, 9⟩)).kind ≠ TokenKind.Comment :=
  ⟨by decide, c1_no_comment_tokens ("/* c */;".data) _ _ (by decide) rfl⟩

/-- C2: for every input consisting solely of ECMAScript-whitespace characters, the
Lexer's iterator yields no tokens and no errors — it skips every character and
signals end of sequence. -/
theorem c2_whitespace_only_yields_nothing (input : List Char)
    (h : ∀ ch ∈ input, Lexer.is_whitespace ch = true) :
    lexChars input = [] := by
  have hskip : skipWs (Cursor.new input) = cursorAt [] (advanceMany ⟨1, 1⟩ input) :=
    skipWsList_all input ⟨1, 1⟩ h
  have hnext : Lexer.next (Lexer.new input) =
      (none, ⟨cursorAt [] (advanceMany ⟨1, 1⟩ input), InputElement.default⟩) := by
    rw [Lexer.next_eq]
    dsimp only [Lexer.new_cursor, Lexer.new_goal]
    rw [(by simp [nextAuxF_succ, hskip, Cursor.next?, cursorAt_chars] :
      nextAuxF ((Cursor.new input).chars.length + 1) (Cursor.new input) =
        (none, cursorAt [] (advanceMany ⟨1, 1⟩ input)))]
  show collectF ((Lexer.new input).cursor.chars.length + 1) (Lexer.new input) = []
  simp only [collectF_succ, hnext]

theorem c2_whitespace_only_yields_nothing_witness :
    (∀ ch ∈ ([' ', ' ', '\u0009', ' '] : List Char), Lexer.is_whitespace ch = true) ∧
    lexChars [' ', ' ', '\u0009', ' '] = [] :=
  ⟨by decide, c2_whitespace_only_yields_nothing [' ', ' ', '\u0009', ' '] (by decide)⟩

/-- C3: for every single-character punctuator in the fixed set, lexing an input that
consists of exactly that one character yields exactly one token, of Punctuator kind,
whose Span covers exactly that character — start is the position before it, end the
position immediately after it. -/
theorem c3_single_char_punctuators :
    lexString (";") = [Except.ok (Token.new (TokenKind.Punctuator Punctuator.Semicolon)
      (Span.new ⟨1, 1⟩ ⟨1, 2⟩))] ∧
    lexString (":") = [Except.ok (Token.new (TokenKind.Punctuator Punctuator.Colon)
      (Span.new ⟨1, 1⟩ ⟨1, 2⟩))] ∧
    lexString ("(") = [Except.ok (Token.new (TokenKind.Punctuator Punctuator.OpenParen)
      (Span.new ⟨1, 1⟩ ⟨1, 2⟩))] ∧
    lexString (")") = [Except.ok (Token.new (TokenKind.Punctuator Punctuator.CloseParen)
      (Span.new ⟨1, 1⟩ ⟨1, 2⟩))] ∧
    lexString (",") = [Except.ok (Token.new (TokenKind.Punctuator Punctuator.Comma)
      (Span.new ⟨1, 1⟩ ⟨1, 2⟩))] ∧
    lexChars [lbraceChar] = [Except.ok (Token.new (TokenKind.Punctuator Punctuator.OpenBlock)
      (Span.new ⟨1, 1⟩ ⟨1, 2⟩))] ∧
    lexChars [rbraceChar] = [Except.ok (Token.new (TokenKind.Punctuator Punctuator.CloseBlock)
      (Span.new ⟨1, 1⟩ ⟨1, 2⟩))] ∧
    lexString ("[") = [Except.ok (Token.new (TokenKind.Punctuator Punctuator.OpenBracket)
      (Span.new ⟨1, 1⟩ ⟨1, 2⟩))] ∧
    lexString ("]") = [Except.ok (Token.new (TokenKind.Punctuator Punctuator.CloseBracket)
      (Span.new ⟨1, 1⟩ ⟨1, 2⟩))] ∧
    lexString ("?") = [Except.ok (Token.new (TokenKind.Punctuator Punctuator.Question)
      (Span.new ⟨1, 1⟩ ⟨1, 2⟩))] := by
  decide

/-- C6: the claim that the strict-mode flag is a configurable property of the Lexer
fails on this code — the Lexer carries only a cursor and a goal symbol, `Lexer::next`
hardcodes `strict_mode = false` (with a pending-work marker), and therefore every
possible Lexer configuration lexes `01` as a NumericLiteral, while a strict-mode
invocation of the numeric sub-tokenizer on the same characters fails. -/
theorem c6_strict_mode_hardcoded :
    (∀ g : InputElement,
      Lexer.collect ⟨Cursor.new ("01".data), g⟩ =
        [Except.ok (Token.new (TokenKind.NumericLiteral ("01")) (Span.new ⟨1, 1⟩ ⟨1, 3⟩))]) ∧
    (NumberLiteral.lex '0' true (cursorAt ("1".data) ⟨1, 2⟩) ⟨1, 1⟩).1 =
      Except.error (Error.syntactic ("implicit octal literals are not allowed in strict mode")) := by
  constructor
  · intro g
    have h := collectF_goal ((Cursor.new ("01".data)).chars.length + 1)
      (Cursor.new ("01".data)) g InputElement.Div
    calc Lexer.collect ⟨Cursor.new ("01".data), g⟩
        = collectF ((Cursor.new ("01".data)).chars.length + 1)
            ⟨Cursor.new ("01".data), InputElement.Div⟩ := h
      _ = [Except.ok (Token.new (TokenKind.NumericLiteral ("01"))
            (Span.new ⟨1, 1⟩ ⟨1, 3⟩))] := by decide
  · decide

/-- C7: under the default goal symbol (InputElement::Div, the one `Lexer::new`
installs), the Lexer never yields a token of kind RegularExpressionLiteral, for any
input — no dispatch arm routes to the regular-expression sub-tokenizer. -/
theorem c7_no_regex_tokens (input : List Char) (r : Except Error Token) (t : Token)
    (hr : r ∈ lexChars input) (ht : r = Except.ok t) :
    t.kind.isRegex = false :=
  (collectF_mem_ok ((Lexer.new input).cursor.chars.length + 1) (Lexer.new input) r t hr ht).2

theorem c7_no_regex_tokens_witness :
    ((Except.ok (Token.new (TokenKind.Punctuator Punctuator.Div)
        (Span.new ⟨1, 1⟩ ⟨1, 2⟩)) : Except Error Token) ∈ lexChars ("/ab/".data)) ∧
    (Token.new (TokenKind.Punctuator Punctuator.Div)
        (Span.new ⟨1, 1⟩ ⟨1, 2⟩)).kind.isRegex = false :=
  ⟨by decide, c7_no_regex_tokens ("/ab/".data) _ _ (by decide) rfl⟩

/-- C9: the sequence of tokens and errors the Lexer yields is independent of the
goal-symbol field — the step and the collected sequence agree for any two goal
symbols, and `_set_goal` changes nothing the iteration reads. -/
theorem c9_goal_symbol_independent (c : Cursor) (g1 g2 : InputElement) :
    (Lexer.next ⟨c, g1⟩).1 = (Lexer.next ⟨c, g2⟩).1 ∧
    ((Lexer.next ⟨c, g1⟩).2).cursor = ((Lexer.next ⟨c, g2⟩).2).cursor ∧
    Lexer.collect ⟨c, g1⟩ = Lexer.collect ⟨c, g2⟩ ∧
    ∀ (l : Lexer) (e : InputElement), (Lexer._set_goal l e).cursor = l.cursor :=
  ⟨rfl, rfl, collectF_goal (c.chars.length + 1) c g1 g2, fun _ _ => rfl⟩

/-- C10: each call to the Lexer's next terminates — fuel one above the number of
remaining characters already computes the fixed point (every comment-skip iteration
strictly consumes characters), a yielded item strictly consumes input, end of
sequence is signalled exactly with an exhausted cursor, and an input consisting
entirely of comments yields the empty sequence. -/
theorem c10_next_terminates :
    (∀ (c : Cursor) (fuel : Nat), c.chars.length < fuel →
      nextAuxF fuel c = nextAuxF (c.chars.length + 1) c ∧
      ((nextAuxF fuel c).1.isSome = true →
        ((nextAuxF fuel c).2).chars.length < c.chars.length) ∧
      ((nextAuxF fuel c).1 = none → ((nextAuxF fuel c).2).chars = [])) ∧
    lexString ("// a") = [] ∧
    lexString ("/* a */ // b") = [] := by
  refine ⟨fun c fuel h => ⟨(nextAuxF_spec fuel c h).2.2.2 _ (Nat.lt_succ_self _),
    (nextAuxF_spec fuel c h).2.1, (nextAuxF_spec fuel c h).2.2.1⟩, by decide, by decide⟩

theorem c10_next_terminates_witness :
    ((Cursor.new ("x".data)).chars.length < 2) ∧
    (nextAuxF 2 (Cursor.new ("x".data)) =
      nextAuxF ((Cursor.new ("x".data)).chars.length + 1) (Cursor.new ("x".data)) ∧
     ((nextAuxF 2 (Cursor.new ("x".data))).1.isSome = true →
       ((nextAuxF 2 (Cursor.new ("x".data))).2).chars.length <
         (Cursor.new ("x".data)).chars.length) ∧
     ((nextAuxF 2 (Cursor.new ("x".data))).1 = none →
       ((nextAuxF 2 (Cursor.new ("x".data))).2).chars = [])) :=
  ⟨by decide, c10_next_terminates.1 (Cursor.new ("x".data)) 2 (by decide)⟩

/-- C4: for every input whose first significant character is a line terminator (CR,
LF, U+2028 or U+2029), the Lexer yields a LineTerminator token whose Span covers
just that one character — line terminators are emitted as tokens rather than
skipped as whitespace. -/
theorem c4_line_terminator_token (ws : List Char) (ch : Char) (rest : List Char)
    (hws : ∀ x ∈ ws, Lexer.is_whitespace x = true)
    (hch : isLineTerminator ch = true) :
    (Lexer.next (Lexer.new (ws ++ ch :: rest))).1 =
      some (Except.ok (Token.new TokenKind.LineTerminator
        (Span.new (advanceMany ⟨1, 1⟩ ws)
          (advancePos (advanceMany ⟨1, 1⟩ ws) ch)))) := by
  have hnotws : Lexer.is_whitespace ch = false := lineterm_not_ws hch
  have hskip : skipWs (Cursor.new (ws ++ ch :: rest)) =
      cursorAt (ch :: rest) (advanceMany ⟨1, 1⟩ ws) := by
    show skipWsList (ws ++ ch :: rest) (⟨1, 1⟩ : Position) =
      cursorAt (ch :: rest) (advanceMany ⟨1, 1⟩ ws)
    rw [skipWsList_append ws (ch :: rest) ⟨1, 1⟩ hws, skipWsList_stop hnotws]
  rw [Lexer.next_eq]
  dsimp only [Lexer.new_cursor]
  rw [nextAuxF_succ, hskip]
  simp only [Cursor.next?, cursorAt_chars, cursorAt_pos]
  unfold dispatchToken
  rw [if_pos hch]
  dsimp only [Token.new]
  rw [if_neg (by decide : ¬(TokenKind.LineTerminator = TokenKind.Comment))]
  simp only [cursorAt_pos]

theorem c4_line_terminator_token_witness :
    (∀ x ∈ ([' '] : List Char), Lexer.is_whitespace x = true) ∧
    isLineTerminator '\n' = true ∧
    (Lexer.next (Lexer.new ([' '] ++ '\n' :: ("x".data)))).1 =
      some (Except.ok (Token.new TokenKind.LineTerminator
        (Span.new (advanceMany ⟨1, 1⟩ [' '])
          (advancePos (advanceMany ⟨1, 1⟩ [' ']) '\n')))) :=
  ⟨by decide, by decide,
    c4_line_terminator_token [' '] '\n' ("x".data) (by decide) (by decide)⟩

/-- C5: for every input whose first significant character is not in any dispatched
class — not a line terminator, quote, template delimiter, ASCII digit, alphabetic,
`$`, `_`, `.`, single-character punctuator, comment opener, or operator-class
character — the Lexer yields a syntax Error whose message names that character and
its 1-based line and column. -/
theorem c5_unrecognized_char_error (ws : List Char) (ch : Char) (rest : List Char)
    (hws : ∀ x ∈ ws, Lexer.is_whitespace x = true)
    (h0 : Lexer.is_whitespace ch = false)
    (h1 : isLineTerminator ch = false)
    (h2 : ch ≠ '"') (h3 : ch ≠ squoteChar) (h4 : ch ≠ backtickChar)
    (h5 : ch.isDigit = false)
    (h6 : isAlphabetic ch = false) (h7 : ch ≠ '$') (h8 : ch ≠ '_')
    (h9 : ch ≠ ';') (h10 : ch ≠ ':') (h11 : ch ≠ '.')
    (h12 : ch ≠ '(') (h13 : ch ≠ ')') (h14 : ch ≠ ',')
    (h15 : ch ≠ lbraceChar) (h16 : ch ≠ rbraceChar)
    (h17 : ch ≠ '[') (h18 : ch ≠ ']') (h19 : ch ≠ '?') (h20 : ch ≠ '/')
    (h21 : ch ≠ '*') (h22 : ch ≠ '+') (h23 : ch ≠ '-') (h24 : ch ≠ '%')
    (h25 : ch ≠ '|') (h26 : ch ≠ '&') (h27 : ch ≠ '^') (h28 : ch ≠ '=')
    (h29 : ch ≠ '<') (h30 : ch ≠ '>') (h31 : ch ≠ '!') (h32 : ch ≠ '~') :
    (Lexer.next (Lexer.new (ws ++ ch :: rest))).1 =
      some (Except.error (Error.syntactic
        (unexpectedMsg ch (advanceMany ⟨1, 1⟩ ws)))) := by
  have hskip : skipWs (Cursor.new (ws ++ ch :: rest)) =
      cursorAt (ch :: rest) (advanceMany ⟨1, 1⟩ ws) := by
    show skipWsList (ws ++ ch :: rest) (⟨1, 1⟩ : Position) =
      cursorAt (ch :: rest) (advanceMany ⟨1, 1⟩ ws)
    rw [skipWsList_append ws (ch :: rest) ⟨1, 1⟩ hws, skipWsList_stop h0]
  rw [Lexer.next_eq]
  dsimp only [Lexer.new_cursor]
  rw [nextAuxF_succ, hskip]
  simp only [Cursor.next?, cursorAt_chars, cursorAt_pos]
  unfold dispatchToken
  rw [if_neg (by simp [h1])]
  rw [if_neg (by simp [h2, h3])]
  rw [if_neg (by simp [h4])]
  rw [if_neg (by simp [h5])]
  rw [if_neg (by simp [h6, h7, h8])]
  rw [if_neg (by simp [h9])]
  rw [if_neg (by simp [h10])]
  rw [if_neg (by simp [h11])]
  rw [if_neg (by simp [h12])]
  rw [if_neg (by simp [h13])]
  rw [if_neg (by simp [h14])]
  rw [if_neg (by simp [h15])]
  rw [if_neg (by simp [h16])]
  rw [if_neg (by simp [h17])]
  rw [if_neg (by simp [h18])]
  rw [if_neg (by simp [h19])]
  rw [if_neg (by simp [h20])]
  rw [if_neg (by simp [h21, h22, h23, h24, h25, h26, h27, h28, h29, h30, h31, h32])]

theorem c5_unrecognized_char_error_witness :
    (Lexer.next (Lexer.new ([] ++ '@' :: ([] : List Char)))).1 =
      some (Except.error (Error.syntactic (unexpectedMsg '@' (advanceMany ⟨1, 1⟩ [])))) ∧
    unexpectedMsg '@' (advanceMany ⟨1, 1⟩ []) =
      "Unexpected " ++ String.singleton squoteChar ++ String.singleton '@' ++
        String.singleton squoteChar ++ " at line 1, column 1" :=
  ⟨c5_unrecognized_char_error [] '@' [] (by decide) (by decide) (by decide)
    (by decide) (by decide) (by decide) (by decide) (by decide) (by decide)
    (by decide) (by decide) (by decide) (by decide) (by decide) (by decide)
    (by decide) (by decide) (by decide) (by decide) (by decide) (by decide)
    (by decide) (by decide) (by decide) (by decide) (by decide) (by decide)
    (by decide) (by decide) (by decide) (by decide) (by decide) (by decide)
    (by decide), by decide⟩

/-- C8: every token the Lexer yields (from any state, at any point of the sequence)
has a non-empty Span — end strictly after start — and its Span's start equals the
position of the uniquely determined cursor state `preLexeme l` the lexer held
immediately before consuming the first character of that token's lexeme: that
state is reached from the current one by skipping whitespace and whole comments
only, and dispatching the character at its head produces exactly the yielded
token. -/
theorem c8_token_spans (l : Lexer) (t : Token) (l2 : Lexer)
    (h : Lexer.next l = (some (Except.ok t), l2)) :
    Position.lt t.span.start t.span.stop ∧
    t.span.start = (preLexeme l).pos ∧
    PreLexemeReach l.cursor (preLexeme l) ∧
    ∃ (ch : Char) (c2 : Cursor), Cursor.next? (preLexeme l) = some (ch, c2) ∧
      (dispatchToken false ch (preLexeme l).pos c2).1 = Except.ok t :=
  nextAuxF_span (l.cursor.chars.length + 1) l.cursor t l2.cursor (Lexer.next_to_aux h)

theorem c8_token_spans_witness :
    Lexer.next (Lexer.new ("/*c*/y".data)) =
      (some (Except.ok (Token.new (TokenKind.Identifier ("y")) (Span.new ⟨1, 6⟩ ⟨1, 7⟩))),
        ⟨⟨[], 1, 7⟩, InputElement.Div⟩) ∧
    (preLexeme (Lexer.new ("/*c*/y".data))).pos = ⟨1, 6⟩ ∧
    (Position.lt (Token.new (TokenKind.Identifier ("y")) (Span.new ⟨1, 6⟩ ⟨1, 7⟩)).span.start
        (Token.new (TokenKind.Identifier ("y")) (Span.new ⟨1, 6⟩ ⟨1, 7⟩)).span.stop ∧
      (Token.new (TokenKind.Identifier ("y")) (Span.new ⟨1, 6⟩ ⟨1, 7⟩)).span.start =
        (preLexeme (Lexer.new ("/*c*/y".data))).pos ∧
      PreLexemeReach (Lexer.new ("/*c*/y".data)).cursor
        (preLexeme (Lexer.new ("/*c*/y".data))) ∧
      ∃ (ch : Char) (c2 : Cursor),
        Cursor.next? (preLexeme (Lexer.new ("/*c*/y".data))) = some (ch, c2) ∧
        (dispatchToken false ch (preLexeme (Lexer.new ("/*c*/y".data))).pos c2).1 =
          Except.ok (Token.new (TokenKind.Identifier ("y")) (Span.new ⟨1, 6⟩ ⟨1, 7⟩))) :=
  ⟨by decide, by decide, c8_token_spans (Lexer.new ("/*c*/y".data))
    (Token.new (TokenKind.Identifier ("y")) (Span.new ⟨1, 6⟩ ⟨1, 7⟩))
    ⟨⟨[], 1, 7⟩, InputElement.Div⟩ (by decide)⟩

end Boa
